import Mathlib

/-!
Verification of the bidirectional sync core of the dual-pane markdown editor.

The development shallowly embeds the two sync implementations found in the
repository:

* the `SyncManager` class (`sync-manager.js`, bundled into `src/main.js`,
  lines 186-372): debounced handlers `handleCodeMirrorChange` /
  `handleMilkdownChange`, the cursor translation helpers
  `calculateApproximatePosition` / `adjustCursorPosition`, and `destroy`;
* the page-level `syncManager` object and `syncToMilkdown` function
  (`src/milkdown-setup.js`, lines 169-300 of the bundled file), which use
  fractional selection mapping.

Strings are modelled as `List Char`, JS numbers as `ℕ`/`ℤ`/`ℚ` as
appropriate (`Math.round` is Mathlib's `round`, which agrees with JS
`Math.round` on rationals: both are `⌊x + 1/2⌋`).  DOM side effects
(`updateStatus`, `updateWordCount`, status elements) mutate no sync state
and are omitted.  `setTimeout`/`clearTimeout` pairs are modelled by a
single optional pending slot: scheduling overwrites the slot (the source
always calls `clearTimeout` first), and an explicit `fire` function runs
the stored callback, which models the quiet period elapsing.  The Milkdown
parser is an external engine and is a parameter `parse`; a thrown JS
exception is `Except.error`.
-/

set_option autoImplicit false

/-! ### JS string/split primitives used by `calculateApproximatePosition` -/

/-- Helper for JS `String.prototype.split('\n')`: first segment (text before
the first newline) paired with the list of remaining segments. -/
def splitNlAux : List Char → List Char × List (List Char)
  | [] => ([], [])
  | c :: rest =>
    let r := splitNlAux rest
    if c = '\n' then ([], r.1 :: r.2) else (c :: r.1, r.2)

/-- JS `content.split('\n')`: always a nonempty list of newline-free
segments; `"".split('\n')` is `[""]` and `"a\n".split('\n')` is
`["a", ""]`. -/
def splitNl (s : List Char) : List (List Char) :=
  (splitNlAux s).1 :: (splitNlAux s).2

/-- Value of the local variable `approximatePos` at the `return` statement of
`SyncManager.calculateApproximatePosition` (src/main.js lines 282-297),
before the final `Math.min`.  `content.substring(0, position)` is
`content.take position`, `split('\n').length` / `.pop().length` are
`(splitNl _).length` / `(splitNl _).getLastD []`, the `for` loop summing
`lines[i].length + 1` for `i < min (linesBeforeCursor - 1) lines.length` is
the mapped sum over the corresponding `take`, and JS
`lines[i]?.length || 0` is `(lines.getD i []).length`. -/
def approximatePosValue (content : List Char) (position : ℕ) : ℕ :=
  let textBeforeCursor := content.take position
  let linesBeforeCursor := (splitNl textBeforeCursor).length
  let lastLineLength := ((splitNl textBeforeCursor).getLastD []).length
  let lines := splitNl content
  let base := ((lines.take (min (linesBeforeCursor - 1) lines.length)).map
      (fun l => l.length + 1)).sum
  if linesBeforeCursor ≤ lines.length then
    base + min lastLineLength (lines.getD (linesBeforeCursor - 1) []).length
  else base

/-- Model of `SyncManager.calculateApproximatePosition` (src/main.js lines
282-299): the line/column round-trip followed by
`Math.min(approximatePos, content.length)`. -/
def calculateApproximatePosition (content : List Char) (position : ℕ) : ℕ :=
  min (approximatePosValue content position) content.length

/-- Model of `SyncManager.getCommonPrefixLength` (src/main.js lines 331-338):
the `while` loop counting equal characters from the front. -/
def getCommonPrefixLength : List Char → List Char → ℕ
  | a :: as, b :: bs => if a = b then getCommonPrefixLength as bs + 1 else 0
  | _, _ => 0

/-- Model of `SyncManager.getCommonSuffixLength` (src/main.js lines 340-348):
the `while` loop counts equal characters from the back, which is the common
front run of the reversed strings. -/
def getCommonSuffixLength (str1 str2 : List Char) : ℕ :=
  getCommonPrefixLength str1.reverse str2.reverse

/-- Model of `SyncManager.adjustCursorPosition` (src/main.js lines 301-329).
JS `substring(n)` is `drop n`, `Math.round` is `round` on `ℚ`, and the
final `Math.min(Math.max(0, _), newContent.length)` is computed in `ℤ` and
converted back with `toNat` (the clamped value is nonnegative, so this is
value-preserving). -/
def adjustCursorPosition (oldContent newContent : List Char) (oldPosition : ℕ) : ℕ :=
  if oldContent = newContent then oldPosition
  else
    let commonPrefixLength := getCommonPrefixLength oldContent newContent
    if oldPosition ≤ commonPrefixLength then oldPosition
    else
      let commonSuffixLength :=
        getCommonSuffixLength (oldContent.drop commonPrefixLength)
          (newContent.drop commonPrefixLength)
      let oldEndPosition := oldContent.length - commonSuffixLength
      if oldEndPosition ≤ oldPosition then
        ((newContent.length : ℤ) - ((oldContent.length : ℤ) - (oldPosition : ℤ))).toNat
      else
        let ratio : ℚ :=
          ((oldPosition : ℚ) - (commonPrefixLength : ℚ))
            / ((oldEndPosition : ℚ) - (commonPrefixLength : ℚ))
        let newEndPosition : ℤ := (newContent.length : ℤ) - (commonSuffixLength : ℤ)
        let newPosition : ℤ := (commonPrefixLength : ℤ)
          + round (ratio * ((newEndPosition : ℚ) - (commonPrefixLength : ℚ)))
        (min (max 0 newPosition) (newContent.length : ℤ)).toNat

/-! ### The `SyncManager` class (src/main.js lines 186-372)

The state bundles the manager's own fields (constructor, lines 187-192)
with the content and cursor of the two editors it was wired to by `init`
(lines 195-198).  `T` is the type of rich-document trees produced by the
Milkdown parser; the parser itself is a parameter of the operations that
invoke it. -/

/-- Which editor a change notification came from (`lastSource` values
`'codemirror'` / `'milkdown'`). -/
inductive Src where
  | codemirror
  | milkdown
deriving DecidableEq

/-- Content captured by a pending `setTimeout` callback in
`handleCodeMirrorChange` (`fromCM`) or `handleMilkdownChange` (`fromMD`). -/
inductive PendingSync where
  | fromCM (content : List Char)
  | fromMD (content : List Char)
deriving DecidableEq

/-- State of one `SyncManager` instance together with its two editors.
`releasePending` models the 100ms `setTimeout` scheduled in the `finally`
blocks (lines 231-236 and 273-278) that resets `isUpdating` and
`lastSource`; `editorsLive` is false when the editor references are
`null` (before `init` or after `destroy`). -/
structure SyncState (T : Type) where
  isUpdating : Bool
  lastSource : Option Src
  debounceTimer : Option PendingSync
  releasePending : Bool
  syncDelay : ℕ
  editorsLive : Bool
  cmText : List Char
  cmCursor : ℕ
  mdDoc : Option T
  mdCursor : ℕ
deriving DecidableEq

/-- State after `new SyncManager()` (src/main.js lines 186-193: `isUpdating
= false`, `lastSource = null`, `debounceTimer = null`, `syncDelay = 500`)
followed by `init(codemirrorEditor, milkdownEditor)` (lines 195-198) with
editors holding the given content and cursors. -/
def mkFresh (T : Type) (cmText : List Char) (cmCursor : ℕ)
    (mdDoc : Option T) (mdCursor : ℕ) : SyncState T :=
  { isUpdating := false
    lastSource := none
    debounceTimer := none
    releasePending := false
    syncDelay := 500
    editorsLive := true
    cmText := cmText
    cmCursor := cmCursor
    mdDoc := mdDoc
    mdCursor := mdCursor }

/-- Model of `SyncManager.handleCodeMirrorChange` (src/main.js lines
200-238) up to the point where the debounced callback is scheduled: return
immediately if `isUpdating`; otherwise `clearTimeout` the old timer and
`setTimeout` a new one capturing `content` (modelled by overwriting the
single pending slot).  `updateStatus('syncing')` touches only the DOM. -/
def handleCodeMirrorChange {T : Type} (content : List Char) (s : SyncState T) :
    SyncState T :=
  if s.isUpdating then s
  else { s with debounceTimer := some (PendingSync.fromCM content) }

/-- Model of `SyncManager.handleMilkdownChange` (src/main.js lines 240-280)
up to scheduling, symmetric to `handleCodeMirrorChange`. -/
def handleMilkdownChange {T : Type} (content : List Char) (s : SyncState T) :
    SyncState T :=
  if s.isUpdating then s
  else { s with debounceTimer := some (PendingSync.fromMD content) }

/-- Model of the Milkdown wrapper's `setContent` (src/milkdown-setup.js
lines 67-85) as seen from the `SyncManager` call site: run the parser; a
parser throw propagates to the awaiting caller (`Except.error`); a falsy
parse result (`if (doc)`) skips the replace; otherwise the document is
replaced wholesale.  The wrapper's own `isInternalUpdate` suppression is
modelled separately by `markdownUpdatedNotifies`. -/
def mdSetContent {T : Type} (parse : List Char → Except Unit (Option T))
    (content : List Char) (s : SyncState T) : Except Unit (SyncState T) :=
  match parse content with
  | Except.error e => Except.error e
  | Except.ok none => Except.ok s
  | Except.ok (some doc) => Except.ok { s with mdDoc := some doc }

/-- Condition under which the Milkdown listener forwards a change to the
`onChange` callback (src/milkdown-setup.js line 44:
`!isInternalUpdate && onChange && markdown !== prevMarkdown`). -/
def markdownUpdatedNotifies (isInternalUpdate : Bool)
    (markdown prevMarkdown : List Char) : Bool :=
  !isInternalUpdate && markdown != prevMarkdown

/-- Body of the debounced callback in `handleCodeMirrorChange` (src/main.js
lines 206-237).  Returns the new state and the list of contents passed to
`milkdownEditor.setContent` (the linear→tree sync executions).  The
`try`/`catch` at lines 216-230 absorbs both a `getCursorPosition` call on a
`null` editor and a parser throw inside `setContent`; the `finally` at
lines 231-236 schedules the 100ms release timer on every path through the
critical section (`releasePending := true`). -/
def runCMTimerBody {T : Type} (parse : List Char → Except Unit (Option T))
    (content : List Char) (s : SyncState T) : SyncState T × List (List Char) :=
  if s.lastSource = some Src.milkdown then
    ({ s with lastSource := none }, [])
  else
    let s1 := { s with isUpdating := true, lastSource := some Src.codemirror }
    if s1.editorsLive = false then
      ({ s1 with releasePending := true }, [])
    else
      let cursorPos := s1.cmCursor
      match mdSetContent parse content s1 with
      | Except.error _ => ({ s1 with releasePending := true }, [content])
      | Except.ok sA =>
        let approximatePos := calculateApproximatePosition content cursorPos
        ({ sA with mdCursor := approximatePos, releasePending := true }, [content])

/-- Model of the CodeMirror wrapper's `setContent`
(src/unnamed/part_001 lines 56-67): compare with the current document and
dispatch a full-range replace only when the text differs. -/
def cmSetContent {T : Type} (content : List Char) (s : SyncState T) : SyncState T :=
  if s.cmText = content then s else { s with cmText := content }

/-- Body of the debounced callback in `handleMilkdownChange` (src/main.js
lines 246-279): skip if the last committed source was CodeMirror; otherwise
compare the serialized text with the CodeMirror content and replace (with
cursor adjustment) only when they differ.  Returns the contents passed to
the tree→linear replace section (its executions). -/
def runMDTimerBody {T : Type} (content : List Char) (s : SyncState T) :
    SyncState T × List (List Char) :=
  if s.lastSource = some Src.codemirror then
    ({ s with lastSource := none }, [])
  else
    let s1 := { s with isUpdating := true, lastSource := some Src.milkdown }
    if s1.editorsLive = false then
      ({ s1 with releasePending := true }, [])
    else
      let currentContent := s1.cmText
      let s2 :=
        if currentContent ≠ content then
          let cursorPos := s1.cmCursor
          let sA := cmSetContent content s1
          let newCursorPos := adjustCursorPosition currentContent content cursorPos
          { sA with cmCursor := newCursorPos }
        else s1
      ({ s2 with releasePending := true }, [content])

/-- Quiet period elapsing: the single pending debounce timer (if any) fires
and its callback runs.  A fired timer is spent, so the slot is cleared
before the body executes. -/
def fireDebounce {T : Type} (parse : List Char → Except Unit (Option T))
    (s : SyncState T) : SyncState T × List (List Char) :=
  match s.debounceTimer with
  | none => (s, [])
  | some (PendingSync.fromCM content) =>
    runCMTimerBody parse content { s with debounceTimer := none }
  | some (PendingSync.fromMD content) =>
    runMDTimerBody content { s with debounceTimer := none }

/-- The 100ms release timer scheduled by the `finally` blocks firing
(src/main.js lines 232-235 and 274-277): reset `isUpdating` and
`lastSource`. -/
def fireRelease {T : Type} (s : SyncState T) : SyncState T :=
  if s.releasePending then
    { s with isUpdating := false, lastSource := none, releasePending := false }
  else s

/-- Model of `SyncManager.destroy` (src/main.js lines 367-371):
`clearTimeout(this.debounceTimer)` and null out both editor references.
No other field is written. -/
def SyncManager.destroy {T : Type} (s : SyncState T) : SyncState T :=
  { s with debounceTimer := none, editorsLive := false }

/-! ### The page-level sync implementation (src/milkdown-setup.js, bundled
second file) -/

/-- Shape of the module-level `syncManager` object literal
(src/milkdown-setup.js lines 169-175). -/
structure MSyncManager where
  isUpdating : Bool
  lastSource : Option Src
  debounceTimer : Option (List Char)
  debounceDelay : ℕ
  scrollSync : Bool
deriving DecidableEq

/-- The `syncManager` object literal itself: `debounceDelay: 300`. -/
def syncManager : MSyncManager :=
  { isUpdating := false
    lastSource := none
    debounceTimer := none
    debounceDelay := 300
    scrollSync := false }

/-- Model of the JS ternary `docSize > 0 ? from / docSize : 0` computing
`relativeFrom`/`relativeTo` (src/milkdown-setup.js lines 265-266) and
`relativePos` (line 493): the division only happens under the positivity
guard. -/
def relativeFraction (offset size : ℕ) : ℚ :=
  if 0 < size then (offset : ℚ) / (size : ℚ) else 0

/-- Model of `Math.min(Math.round(relative * newSize), newSize)` computing
`newFrom`/`newTo` (src/milkdown-setup.js lines 277-278) and `newPos`
(line 508). -/
def recomputedOffset (relative : ℚ) (newSize : ℕ) : ℤ :=
  min (round (relative * (newSize : ℚ))) (newSize : ℤ)

/-- State of the page-level implementation: the `syncManager` object plus
the Milkdown editor it syncs into (`mdLive`/`viewLive` are false when
`milkdownEditor`/`view` are null; `selFrom`, `selTo`, `docSize` mirror
`state.selection` and `state.doc.content.size`). -/
structure MState (T : Type) where
  sync : MSyncManager
  mdLive : Bool
  viewLive : Bool
  mdDoc : Option T
  selFrom : ℕ
  selTo : ℕ
  docSize : ℕ
deriving DecidableEq

/-- Model of `syncToMilkdown` (src/milkdown-setup.js lines 241-300): guard
on a null editor, set `isUpdating`/`lastSource`, run the parser (a throw
goes to the `catch`, line 292), bail out of the action if the view is null,
otherwise replace the document and restore a fractionally-mapped collapsed
selection; the `finally` (lines 297-299) resets `isUpdating` on every path
past the initial null-editor guard.  `near(resolve(newFrom))` is modelled
as the offset itself. -/
def syncToMilkdown {T : Type} (parse : List Char → Except Unit T) (size : T → ℕ)
    (content : List Char) (st : MState T) : MState T :=
  if st.mdLive = false then st
  else
    let s1 := { st with sync :=
      { st.sync with isUpdating := true, lastSource := some Src.codemirror } }
    let s2 :=
      match parse content with
      | Except.error _ => s1
      | Except.ok doc =>
        if s1.viewLive = false then s1
        else
          let relativeFrom := relativeFraction s1.selFrom s1.docSize
          let relativeTo := relativeFraction s1.selTo s1.docSize
          let newDocSize := size doc
          let newFrom := recomputedOffset relativeFrom newDocSize
          let newTo := recomputedOffset relativeTo newDocSize
          let sR := { s1 with mdDoc := some doc, docSize := newDocSize }
          if newFrom = newTo then
            { sR with selFrom := newFrom.toNat, selTo := newFrom.toNat }
          else sR
    { s2 with sync := { s2.sync with isUpdating := false } }

/-! ### Lemmas about `splitNl` -/

theorem splitNlAux_no_nl (l : List Char) (h : '\n' ∉ l) : splitNlAux l = (l, []) := by
  induction l with
  | nil => rfl
  | cons c t ih =>
    have hc : ¬ c = '\n' := fun hc => h (hc ▸ List.mem_cons_self c t)
    have ht : '\n' ∉ t := fun hm => h (List.mem_cons_of_mem c hm)
    simp [splitNlAux, hc, ih ht]

theorem splitNlAux_append_nl (l r : List Char) (h : '\n' ∉ l) :
    splitNlAux (l ++ '\n' :: r) = (l, splitNl r) := by
  induction l with
  | nil => simp [splitNlAux, splitNl]
  | cons c t ih =>
    have hc : ¬ c = '\n' := fun hc => h (hc ▸ List.mem_cons_self c t)
    have ht : '\n' ∉ t := fun hm => h (List.mem_cons_of_mem c hm)
    simp [splitNlAux, hc, ih ht]

theorem splitNl_no_nl (l : List Char) (h : '\n' ∉ l) : splitNl l = [l] := by
  simp [splitNl, splitNlAux_no_nl l h]

theorem splitNl_append_nl (l r : List Char) (h : '\n' ∉ l) :
    splitNl (l ++ '\n' :: r) = l :: splitNl r := by
  simp [splitNl, splitNlAux_append_nl l r h]

theorem splitNl_cons (s : List Char) :
    splitNl s = (splitNlAux s).1 :: (splitNlAux s).2 := rfl

theorem exists_first_nl (s : List Char) (hs : '\n' ∈ s) :
    ∃ l r, s = l ++ '\n' :: r ∧ '\n' ∉ l := by
  induction s with
  | nil => cases hs
  | cons c t ih =>
    by_cases hc : c = '\n'
    · exact ⟨[], t, by simp [hc], by simp⟩
    · have ht : '\n' ∈ t := by
        rcases List.mem_cons.mp hs with h1 | h2
        · exact absurd h1.symm hc
        · exact h2
      obtain ⟨l, r, h1, h2⟩ := ih ht
      refine ⟨c :: l, r, by simp [h1], ?_⟩
      intro hm
      rcases List.mem_cons.mp hm with h3 | h4
      · exact hc h3.symm
      · exact h2 h4

/-! ### The cursor round-trip is the identity (claim C10 groundwork) -/

theorem approx_no_nl (content : List Char) (h : '\n' ∉ content) (pos : ℕ)
    (hpos : pos ≤ content.length) : approximatePosValue content pos = pos := by
  have hpre : '\n' ∉ content.take pos := fun hm => h (List.take_subset pos content hm)
  simp only [approximatePosValue, splitNl_no_nl _ h, splitNl_no_nl _ hpre]
  simp [List.length_take, Nat.min_eq_left hpos,
    Nat.min_eq_left (Nat.le_trans hpos (Nat.le_refl _))]

theorem approx_short (l r : List Char) (hl : '\n' ∉ l) (pos : ℕ) (hpos : pos ≤ l.length) :
    approximatePosValue (l ++ '\n' :: r) pos = pos := by
  have htake : (l ++ '\n' :: r).take pos = l.take pos := by
    rw [List.take_append_eq_append_take]
    simp [Nat.sub_eq_zero_of_le hpos]
  have hpre : '\n' ∉ l.take pos := fun hm => hl (List.take_subset pos l hm)
  simp only [approximatePosValue, htake, splitNl_no_nl _ hpre, splitNl_append_nl l r hl]
  simp [List.length_take, Nat.min_eq_left hpos]

theorem approx_decompose (l r : List Char) (hl : '\n' ∉ l) (pos' : ℕ) :
    approximatePosValue (l ++ '\n' :: r) (l.length + 1 + pos')
      = l.length + 1 + approximatePosValue r pos' := by
  have hn : l.length ≤ l.length + 1 + pos' := by omega
  have htake : (l ++ '\n' :: r).take (l.length + 1 + pos') = l ++ '\n' :: r.take pos' := by
    rw [List.take_append_eq_append_take]
    have h1 : l.take (l.length + 1 + pos') = l := List.take_of_length_le hn
    have h2 : l.length + 1 + pos' - l.length = pos' + 1 := by omega
    rw [h1, h2, List.take_succ_cons]
  simp only [approximatePosValue, htake, splitNl_append_nl l r hl,
    splitNl_append_nl l (r.take pos') hl]
  rw [splitNl_cons (r.take pos'), splitNl_cons r]
  generalize (splitNlAux (r.take pos')).1 = a
  generalize (splitNlAux (r.take pos')).2 = t
  generalize (splitNlAux r).1 = b
  generalize (splitNlAux r).2 = u
  simp only [List.length_cons, List.getLastD_cons, Nat.add_sub_cancel,
    Nat.succ_min_succ, List.take_succ_cons, List.map_cons, List.sum_cons,
    List.getD_cons_succ, Nat.add_le_add_iff_right]
  split
  · omega
  · omega

theorem approximatePosValue_eq_aux :
    ∀ (n : ℕ) (content : List Char), content.length ≤ n →
      ∀ pos, pos ≤ content.length → approximatePosValue content pos = pos := by
  intro n
  induction n with
  | zero =>
    intro content hlen pos hpos
    have hc : content = [] := List.length_eq_zero.mp (Nat.le_zero.mp hlen)
    subst hc
    have hp : pos = 0 := Nat.le_zero.mp hpos
    subst hp
    exact approx_no_nl [] (by simp) 0 (by simp)
  | succ n ih =>
    intro content hlen pos hpos
    by_cases hnl : '\n' ∈ content
    · obtain ⟨l, r, hdecomp, hlnl⟩ := exists_first_nl content hnl
      subst hdecomp
      by_cases hple : pos ≤ l.length
      · exact approx_short l r hlnl pos hple
      · have hlen' : (l ++ '\n' :: r).length = l.length + 1 + r.length := by
          simp; omega
        have hpos' : pos = l.length + 1 + (pos - l.length - 1) := by omega
        have hr : r.length ≤ n := by omega
        rw [hpos', approx_decompose l r hlnl (pos - l.length - 1),
          ih r hr (pos - l.length - 1) (by omega)]
    · exact approx_no_nl content hnl pos hpos

/-- Claim C10: for every string `content` and every position with
`0 ≤ position ≤ content.length`, `calculateApproximatePosition content
position` returns exactly `position` — the line/column round-trip is the
identity on in-range offsets — and the result never exceeds
`content.length` for any position. -/
theorem calculateApproximatePosition_id (content : List Char) (position : ℕ) :
    (position ≤ content.length →
      calculateApproximatePosition content position = position)
    ∧ calculateApproximatePosition content position ≤ content.length := by
  constructor
  · intro h
    rw [calculateApproximatePosition,
      approximatePosValue_eq_aux content.length content (Nat.le_refl _) position h]
    exact Nat.min_eq_left h
  · exact Nat.min_le_right _ _

/-- Witness for C10 at the concrete document `"ab\ncd"` with the cursor at
offset 4 (inside the second line). -/
theorem calculateApproximatePosition_id_witness :
    calculateApproximatePosition ['a', 'b', '\n', 'c', 'd'] 4 = 4 ∧
      calculateApproximatePosition ['a', 'b', '\n', 'c', 'd'] 4 ≤ 5 :=
  ⟨(calculateApproximatePosition_id ['a', 'b', '\n', 'c', 'd'] 4).1 (by decide),
    (calculateApproximatePosition_id ['a', 'b', '\n', 'c', 'd'] 4).2⟩

/-! ### Fractional cursor mapping (claims C5, C6) -/

theorem recomputedOffset_nonneg (relative : ℚ) (newSize : ℕ) (h : 0 ≤ relative) :
    0 ≤ recomputedOffset relative newSize := by
  apply le_min
  · rw [round_eq, Int.le_floor]
    push_cast
    nlinarith [mul_nonneg h (show (0:ℚ) ≤ (newSize : ℚ) by positivity)]
  · exact_mod_cast Nat.zero_le newSize

/-- Claim C5: for `relativeFrom, relativeTo ∈ [0,1]` and any new content
size, the recomputed offsets `Math.min(Math.round(relative * newSize),
newSize)` lie within `[0, newSize]`; and a cursor at offset 5 of a 10-unit
document (fraction `5/10 = 0.5`) lands at offset 10 in a 20-unit
document. -/
theorem recomputedOffset_clamped (relativeFrom relativeTo : ℚ) (newContentSize : ℕ)
    (h1 : 0 ≤ relativeFrom) (h2 : relativeFrom ≤ 1)
    (h3 : 0 ≤ relativeTo) (h4 : relativeTo ≤ 1) :
    (0 ≤ recomputedOffset relativeFrom newContentSize ∧
      recomputedOffset relativeFrom newContentSize ≤ (newContentSize : ℤ)) ∧
    (0 ≤ recomputedOffset relativeTo newContentSize ∧
      recomputedOffset relativeTo newContentSize ≤ (newContentSize : ℤ)) ∧
    recomputedOffset (relativeFraction 5 10) 20 = 10 := by
  refine ⟨⟨recomputedOffset_nonneg _ _ h1, min_le_right _ _⟩,
    ⟨recomputedOffset_nonneg _ _ h3, min_le_right _ _⟩, ?_⟩
  have hfrac : relativeFraction 5 10 = 1 / 2 := by
    norm_num [relativeFraction]
  rw [recomputedOffset, hfrac]
  have h20 : (1 / 2 : ℚ) * ((20 : ℕ) : ℚ) = ((10 : ℤ) : ℚ) := by norm_num
  rw [h20, round_intCast]
  norm_num

/-- Witness for C5 at `relativeFrom = 1/2`, `relativeTo = 3/4`,
`newContentSize = 20`. -/
theorem recomputedOffset_clamped_witness :
    ((0 ≤ recomputedOffset (1 / 2) 20 ∧ recomputedOffset (1 / 2) 20 ≤ (20 : ℤ)) ∧
      (0 ≤ recomputedOffset (3 / 4) 20 ∧ recomputedOffset (3 / 4) 20 ≤ (20 : ℤ)) ∧
      recomputedOffset (relativeFraction 5 10) 20 = 10) :=
  recomputedOffset_clamped (1 / 2) (3 / 4) 20 (by norm_num) (by norm_num)
    (by norm_num) (by norm_num)

/-- Claim C6: capturing the selection as a fraction of content size never
divides by zero — a zero content size yields fraction 0, and the division
`offset / size` is performed only under the guard `0 < size`. -/
theorem relativeFraction_zero_guard :
    (∀ offset : ℕ, relativeFraction offset 0 = 0) ∧
    (∀ offset size : ℕ, 0 < size →
      relativeFraction offset size = (offset : ℚ) / (size : ℚ)) := by
  constructor
  · intro o
    simp [relativeFraction]
  · intro o s hs
    simp [relativeFraction, hs]

/-- Witness for C6: both selection endpoints of an empty document map to
fraction 0, and for a positive size the guarded division is taken. -/
theorem relativeFraction_zero_guard_witness :
    relativeFraction 7 0 = 0 ∧ relativeFraction 3 4 = (3 : ℚ) / 4 :=
  ⟨relativeFraction_zero_guard.1 7,
    by
      have h := relativeFraction_zero_guard.2 3 4 (by norm_num)
      rw [h]
      norm_num⟩

/-! ### Suppression and error-handling theorems (claims C1, C3, C4, C7) -/

/-- Claim C1: whenever the suppression flag is set at the moment a change
notification arrives, both handlers return immediately with the state
untouched (no sync scheduled or executed); moreover a programmatic
Milkdown replace runs under `isInternalUpdate = true`, under which the
`markdownUpdated` listener never forwards a change, so a programmatic
full-content replace triggers zero sync invocations. -/
theorem suppressed_handler_is_noop {T : Type} (s : SyncState T) (content : List Char)
    (h : s.isUpdating = true) :
    handleCodeMirrorChange content s = s ∧ handleMilkdownChange content s = s ∧
      (∀ markdown prevMarkdown : List Char,
        markdownUpdatedNotifies true markdown prevMarkdown = false) := by
  refine ⟨?_, ?_, ?_⟩
  · rw [handleCodeMirrorChange, if_pos h]
  · rw [handleMilkdownChange, if_pos h]
  · intro m p
    rfl

/-- Sample busy state: a freshly wired manager whose suppression flag is
set (mid programmatic update). -/
def sampleBusy : SyncState Unit :=
  { mkFresh Unit ['x'] 0 none 0 with isUpdating := true }

/-- Witness for C1 at a concrete suppressed state. -/
theorem suppressed_handler_is_noop_witness :
    handleCodeMirrorChange ['y'] sampleBusy = sampleBusy ∧
      handleMilkdownChange ['y'] sampleBusy = sampleBusy ∧
      (∀ markdown prevMarkdown : List Char,
        markdownUpdatedNotifies true markdown prevMarkdown = false) :=
  suppressed_handler_is_noop sampleBusy ['y'] rfl

/-- Claim C3: the suppression flag is false after a sync attempt completes,
whether it succeeded or failed.  For the `SyncManager` path the `finally`
block schedules the release timer on every path through the critical
section, and once it fires (`fireRelease`) `isUpdating` is false even when
the parser threw; for the page-level `syncToMilkdown` the `finally` resets
the flag synchronously on every path past the null-editor guard. -/
theorem suppression_flag_released {T : Type}
    (parse : List Char → Except Unit (Option T)) (content : List Char)
    (s : SyncState T) (h : s.lastSource ≠ some Src.milkdown) :
    (fireRelease (runCMTimerBody parse content s).1).isUpdating = false ∧
    (∀ (T' : Type) (parse' : List Char → Except Unit T') (size : T' → ℕ)
      (content' : List Char) (st : MState T'), st.mdLive = true →
        (syncToMilkdown parse' size content' st).sync.isUpdating = false) := by
  constructor
  · rw [runCMTimerBody, if_neg h]
    dsimp only
    split
    · rfl
    · split
      · rfl
      · rfl
  · intro T' parse' size content' st hlive
    rw [syncToMilkdown, if_neg (by simp [hlive])]

/-- Parser stub that always throws, for witnesses exercising the failure
path (`SyncManager` call shape). -/
def failParse : List Char → Except Unit (Option Unit) :=
  fun _ => Except.error ()

/-- Parser stub that always throws (page-level call shape). -/
def failParseT : List Char → Except Unit Unit :=
  fun _ => Except.error ()

/-- Trivial content-size function for the unit tree type. -/
def sizeT : Unit → ℕ :=
  fun _ => 0

/-- Sample page-level state with a live editor and view. -/
def sampleMState : MState Unit :=
  { sync := syncManager
    mdLive := true
    viewLive := true
    mdDoc := none
    selFrom := 0
    selTo := 0
    docSize := 0 }

/-- Witness for C3: a throwing parser on a fresh manager still ends with
the flag released, in both implementations. -/
theorem suppression_flag_released_witness :
    (fireRelease (runCMTimerBody failParse ['a'] (mkFresh Unit ['x'] 0 none 0)).1).isUpdating
        = false ∧
      (syncToMilkdown failParseT sizeT ['a'] sampleMState).sync.isUpdating = false := by
  have h := suppression_flag_released failParse ['a'] (mkFresh Unit ['x'] 0 none 0)
    (by decide)
  exact ⟨h.1, h.2 Unit failParseT sizeT ['a'] sampleMState rfl⟩

/-- Claim C4: if the parser throws during a linear→tree sync, the debounced
callback completes normally (the `try`/`catch` absorbs the exception — in
the model the callback is a total function whose error arm is the `catch`
branch), the rich document and its cursor are left exactly as they were
before the attempt, and the cleanup is still scheduled. -/
theorem parse_failure_leaves_tree_unchanged {T : Type}
    (parse : List Char → Except Unit (Option T)) (content : List Char)
    (s : SyncState T) (hls : s.lastSource ≠ some Src.milkdown)
    (hlive : s.editorsLive = true) (hfail : parse content = Except.error ()) :
    (runCMTimerBody parse content s).1.mdDoc = s.mdDoc ∧
    (runCMTimerBody parse content s).1.mdCursor = s.mdCursor ∧
    (runCMTimerBody parse content s).1.releasePending = true := by
  rw [runCMTimerBody, if_neg hls]
  dsimp only
  rw [if_neg (by simp [hlive])]
  simp [mdSetContent, hfail]

/-- Witness for C4: the always-throwing parser leaves a concrete fresh
manager's rich document untouched. -/
theorem parse_failure_leaves_tree_unchanged_witness :
    (runCMTimerBody failParse ['a'] (mkFresh Unit ['x'] 2 none 1)).1.mdDoc = none ∧
      (runCMTimerBody failParse ['a'] (mkFresh Unit ['x'] 2 none 1)).1.mdCursor = 1 ∧
      (runCMTimerBody failParse ['a'] (mkFresh Unit ['x'] 2 none 1)).1.releasePending
        = true :=
  parse_failure_leaves_tree_unchanged failParse ['a'] (mkFresh Unit ['x'] 2 none 1)
    (by decide) rfl rfl

/-- Claim C7: when the serialized text of a tree→linear sync equals the
source surface's current text, the full-buffer replace and the cursor
adjustment are both skipped (buffer and cursor untouched), the cleanup
still runs so the flag ends released; the CodeMirror wrapper's own
`setContent` performs the same compare-and-skip. -/
theorem identical_text_skips_replace {T : Type} (s : SyncState T)
    (h : s.lastSource ≠ some Src.codemirror) (hlive : s.editorsLive = true) :
    (runMDTimerBody s.cmText s).1.cmText = s.cmText ∧
    (runMDTimerBody s.cmText s).1.cmCursor = s.cmCursor ∧
    (runMDTimerBody s.cmText s).1.releasePending = true ∧
    (fireRelease (runMDTimerBody s.cmText s).1).isUpdating = false ∧
    (∀ (s' : SyncState T) (content : List Char), s'.cmText = content →
      cmSetContent content s' = s') := by
  rw [runMDTimerBody, if_neg h]
  dsimp only
  rw [if_neg (by simp [hlive])]
  refine ⟨by simp, by simp, by simp, by simp [fireRelease], ?_⟩
  intro s' content h'
  rw [cmSetContent, if_pos h']

/-- Witness for C7 at a concrete state whose serialized text matches. -/
theorem identical_text_skips_replace_witness :
    (runMDTimerBody (mkFresh Unit ['x'] 3 none 0).cmText
        (mkFresh Unit ['x'] 3 none 0)).1.cmText = (mkFresh Unit ['x'] 3 none 0).cmText ∧
      (runMDTimerBody (mkFresh Unit ['x'] 3 none 0).cmText
        (mkFresh Unit ['x'] 3 none 0)).1.cmCursor = 3 ∧
      (runMDTimerBody (mkFresh Unit ['x'] 3 none 0).cmText
        (mkFresh Unit ['x'] 3 none 0)).1.releasePending = true ∧
      (fireRelease (runMDTimerBody (mkFresh Unit ['x'] 3 none 0).cmText
        (mkFresh Unit ['x'] 3 none 0)).1).isUpdating = false ∧
      (∀ (s' : SyncState Unit) (content : List Char), s'.cmText = content →
        cmSetContent content s' = s') :=
  identical_text_skips_replace (mkFresh Unit ['x'] 3 none 0) (by decide) rfl

/-! ### Debounce coalescing (claim C2) -/

theorem foldl_handleCM {T : Type} :
    ∀ (cs : List (List Char)) (s : SyncState T), s.isUpdating = false → cs ≠ [] →
      cs.foldl (fun acc c => handleCodeMirrorChange c acc) s
        = { s with debounceTimer := some (PendingSync.fromCM (cs.getLastD [])) } := by
  intro cs
  induction cs with
  | nil => intro s _ hne; exact absurd rfl hne
  | cons c t ih =>
    intro s hs _
    rw [List.foldl_cons]
    have hstep : handleCodeMirrorChange c s
        = { s with debounceTimer := some (PendingSync.fromCM c) } := by
      rw [handleCodeMirrorChange, if_neg (by simp [hs])]
    rw [hstep]
    cases t with
    | nil => simp [List.getLastD]
    | cons d u =>
      rw [ih ({ s with debounceTimer := some (PendingSync.fromCM c) }) hs (by simp)]
      simp [List.getLastD_cons]

/-- Claim C2: N ≥ 1 calls to `handleCodeMirrorChange`, each arriving before
the previous debounce timer fires (each call's `clearTimeout` cancels the
earlier pending timer, modelled by overwriting the single pending slot),
leave exactly one pending timer holding the last call's content; when the
quiet period elapses exactly one linear→tree sync executes, it passes the
last call's content to `setContent`, and no timer remains pending
afterwards. -/
theorem debounce_coalescing {T : Type} (parse : List Char → Except Unit (Option T))
    (cs : List (List Char)) (hne : cs ≠ []) (cmText : List Char) (cmCursor : ℕ)
    (mdDoc : Option T) (mdCursor : ℕ) :
    (cs.foldl (fun acc c => handleCodeMirrorChange c acc)
        (mkFresh T cmText cmCursor mdDoc mdCursor)).debounceTimer
      = some (PendingSync.fromCM (cs.getLastD [])) ∧
    (fireDebounce parse (cs.foldl (fun acc c => handleCodeMirrorChange c acc)
        (mkFresh T cmText cmCursor mdDoc mdCursor))).2 = [cs.getLastD []] ∧
    (fireDebounce parse (cs.foldl (fun acc c => handleCodeMirrorChange c acc)
        (mkFresh T cmText cmCursor mdDoc mdCursor))).1.debounceTimer = none := by
  rw [foldl_handleCM cs (mkFresh T cmText cmCursor mdDoc mdCursor) rfl hne]
  refine ⟨rfl, ?_⟩
  generalize cs.getLastD [] = w
  rw [fireDebounce]
  dsimp only
  rw [runCMTimerBody, if_neg (by simp [mkFresh])]
  dsimp only
  rw [if_neg (by simp [mkFresh])]
  rcases hp : parse w with e | o
  · simp only [mdSetContent, hp]
    exact ⟨trivial, trivial⟩
  · cases o with
    | none =>
      simp only [mdSetContent, hp]
      exact ⟨trivial, trivial⟩
    | some doc =>
      simp only [mdSetContent, hp]
      exact ⟨trivial, trivial⟩

/-- Witness for C2: two rapid edits `"a"` then `"b"` coalesce into one sync
carrying `"b"`. -/
theorem debounce_coalescing_witness :
    ([['a'], ['b']].foldl (fun acc c => handleCodeMirrorChange c acc)
        (mkFresh Unit ['x'] 0 none 0)).debounceTimer
      = some (PendingSync.fromCM ['b']) ∧
    (fireDebounce failParse ([['a'], ['b']].foldl
        (fun acc c => handleCodeMirrorChange c acc)
        (mkFresh Unit ['x'] 0 none 0))).2 = [['b']] ∧
    (fireDebounce failParse ([['a'], ['b']].foldl
        (fun acc c => handleCodeMirrorChange c acc)
        (mkFresh Unit ['x'] 0 none 0))).1.debounceTimer = none :=
  debounce_coalescing failParse [['a'], ['b']] (by decide) ['x'] 0 none 0

/-! ### Default debounce delay (claim C8, corrected) -/

/-- Counterexample to claim C8 as stated: the `SyncManager` constructor
(src/main.js line 192) initializes `syncDelay` to 500, not 300. -/
theorem syncDelay_default_not_300 : (mkFresh Unit [] 0 none 0).syncDelay ≠ 300 := by
  decide

/-- Claim C8 amended: the debounce quiet period is a per-instance mutable
field rather than a hard constant, but its default differs between the two
implementations — the `SyncManager` class defaults `syncDelay` to 500 ms
(src/main.js line 192), while the page-level `syncManager` object defaults
`debounceDelay` to 300 ms (src/milkdown-setup.js line 173). -/
theorem debounce_delay_defaults :
    (∀ (T : Type) (cmText : List Char) (cmCursor : ℕ) (mdDoc : Option T)
      (mdCursor : ℕ), (mkFresh T cmText cmCursor mdDoc mdCursor).syncDelay = 500) ∧
    syncManager.debounceDelay = 300 :=
  ⟨fun _ _ _ _ _ => rfl, rfl⟩

/-! ### Disposal (claim C9, corrected) -/

/-- Sample state mid-update with a pending debounce timer, as when
`destroy` is called while a sync is in flight. -/
def wedgedState : SyncState Unit :=
  { mkFresh Unit [] 0 none 0 with
    isUpdating := true
    debounceTimer := some (PendingSync.fromCM ['a']) }

/-- Counterexample to claim C9 as stated: `destroy` (src/main.js lines
367-371) writes only `debounceTimer` and the two editor references, so on a
state whose suppression flag is set it leaves the flag set instead of
clearing it. -/
theorem destroy_does_not_clear_flag :
    (SyncManager.destroy wedgedState).isUpdating = true := rfl

/-- Claim C9 amended: `destroy` cancels any pending debounce timer and
nulls the editor references, so zero syncs execute after disposal no matter
what timer was pending; but it leaves the suppression flag unchanged rather
than clearing it. -/
theorem destroy_cancels_pending {T : Type} :
    ∀ (s : SyncState T) (parse : List Char → Except Unit (Option T)),
      (SyncManager.destroy s).debounceTimer = none ∧
      fireDebounce parse (SyncManager.destroy s) = (SyncManager.destroy s, []) ∧
      (SyncManager.destroy s).isUpdating = s.isUpdating :=
  fun _ _ => ⟨rfl, rfl, rfl⟩
